import Mathlib

/-
Verification of the controlled-state Toggle coordinator from
advanced-react-patterns-v2.

The core under study is the `Toggle` class of
`src/exercises-final/12.js` (higher-order-component variant), together
with the provider-pattern variant (same coordinator, but its
`onToggle`/`onReset` callbacks receive the whole `getState()` record
instead of `getState().on`).

Shallow embedding conventions:
- JS values relevant to the coordinator are modelled by `JVal`
  (undefined, booleans, strings, numbers, opaque function handles).
- JS objects are association lists `Record` in insertion order;
  `recGet` is property read (first match, `undefined` when absent),
  `recHas` is `hasOwnProperty`.
- `this.props` is modelled by `Config`: the owner-supplied props
  (`ownProps`, where a pair with value `.undef` models an explicit
  `prop: undefined`) resolved against `defaultProps` exactly as React
  does, plus the semantic `stateReducer` function (owner-supplied or
  the default identity).
- Callback invocations (`onStateChange`, `onToggle`, `onReset`, and
  override click handlers) are recorded as events `Ev` in invocation
  order instead of being modelled as side effects.
-/

set_option autoImplicit false

namespace TogglePatterns

/-- A JavaScript value as used by the Toggle coordinator: `undefined`,
booleans, strings, numbers, and opaque function handles (functions are
never inspected, only passed around, so a name suffices). -/
inductive JVal where
  | undef
  | bool (b : Bool)
  | str (s : String)
  | num (n : Int)
  | fnv (name : String)
  deriving DecidableEq, Repr

/-- A JavaScript object: own enumerable properties in insertion order. -/
abbrev Record := List (String × JVal)

/-- Property read `obj[key]`: the first entry with the key, else `undefined`. -/
def recGet : Record → String → JVal
  | [], _ => .undef
  | (k, v) :: tl, key => if k = key then v else recGet tl key

/-- `obj.hasOwnProperty(key)`. -/
def recHas : Record → String → Bool
  | [], _ => false
  | (k, _) :: tl, key => if k = key then true else recHas tl key

/-- The keys of an object, in order (`Object.keys`). -/
def keysOf (r : Record) : List String := r.map Prod.fst

/-- JavaScript truthiness of a `JVal` (used by `callAll`'s `fn && fn(...)`
guard and by `!on`). -/
def truthy : JVal → Bool
  | .undef => false
  | .bool b => b
  | .str s => s != ""
  | .num n => n != 0
  | .fnv _ => true

/-- JavaScript boolean negation `!v`. -/
def jsNot (v : JVal) : JVal := .bool (!truthy v)

/-- `Toggle.defaultProps` (12.js lines 17-23): default `initialOn` and the
four default callback/reducer props.  The function-valued defaults are
opaque handles; the semantic default reducer is `defaultStateReducer`. -/
def defaultProps : Record :=
  [("initialOn", .bool false),
   ("onReset", .fnv "noop"),
   ("onToggle", .fnv "noop"),
   ("onStateChange", .fnv "noop"),
   ("stateReducer", .fnv "identityReducer")]

/-- The default `stateReducer: (state, changes) => changes`. -/
def defaultStateReducer : Record → Record → Record := fun _ changes => changes

/-- The coordinator's configuration: the owner-supplied props (values may
be `.undef`, modelling an explicit `prop: undefined`), and the semantic
state reducer (the owner's function if supplied, else
`defaultStateReducer`). -/
structure Config where
  ownProps : Record
  stateReducer : Record → Record → Record

/-- `this.props[k]` after React applies `defaultProps`: the owner's value
when it is not `undefined`, else the default (or `undefined` when there
is no default). -/
def propsVal (cfg : Config) (k : String) : JVal :=
  match recGet cfg.ownProps k with
  | .undef => recGet defaultProps k
  | v => v

/-- `isControlled(prop) { return this.props[prop] !== undefined }`
(12.js lines 52-54). -/
def isControlled (cfg : Config) (k : String) : Bool :=
  propsVal cfg k != JVal.undef

/-- `Toggle.stateChangeTypes.toggle` (12.js line 26). -/
def stateChangeTypesToggle : String := "__toggle_toggle__"

/-- `Toggle.stateChangeTypes.reset` (12.js line 25). -/
def stateChangeTypesReset : String := "__toggle_reset__"

/-- `this.initialState` (12.js lines 45-50): the `on` seed plus the three
bound operation handles. -/
def initialState (cfg : Config) : Record :=
  [("on", propsVal cfg "initialOn"),
   ("toggle", .fnv "toggle"),
   ("reset", .fnv "reset"),
   ("getTogglerProps", .fnv "getTogglerProps")]

/-- `getState(state)` (12.js lines 55-64): per field, the prop value when
that field is controlled, else the internally tracked value. -/
def getState (cfg : Config) (state : Record) : Record :=
  state.map (fun kv =>
    (kv.1, if isControlled cfg kv.1 then propsVal cfg kv.1 else kv.2))

/-- An argument to `internalSetState`: either a literal change record or a
function of the combined state (the two shapes `setState` accepts). -/
inductive Changes where
  | lit (r : Record)
  | fn (f : Record → Record)

/-- Step of the pipeline that resolves a function-style change against the
combined state (12.js line 72). -/
def resolveChanges : Changes → Record → Record
  | .lit r, _ => r
  | .fn f, comb => f comb

/-- The authoritative change record: the proposed change resolved against
the combined state and passed through the state reducer
(12.js lines 69-76); this is what `onStateChange` receives. -/
def allChangesOf (cfg : Config) (ch : Changes) (state : Record) : Record :=
  cfg.stateReducer (getState cfg state) (resolveChanges ch (getState cfg state))

/-- The internal write set (12.js lines 78-87): over `Object.keys(state)`,
drop every controlled field; an uncontrolled field gets the authoritative
change's value when present there, else its combined-state value. -/
def stateToSetOf (cfg : Config) (state combinedState allChanges : Record) : Record :=
  (state.map Prod.fst).filterMap (fun stateKey =>
    if isControlled cfg stateKey then none
    else some (stateKey,
      if recHas allChanges stateKey then recGet allChanges stateKey
      else recGet combinedState stateKey))

/-- React's `setState` merge of a partial update into the current state. -/
def setStateMerge (state upd : Record) : Record :=
  state.map (fun kv => (kv.1, if recHas upd kv.1 then recGet upd kv.1 else kv.2))
    ++ upd.filter (fun kv => !recHas state kv.1)

/-- `internalSetState` (12.js lines 65-96): returns the internal state
after the mutation attempt (unchanged when the write set is empty, per
`Object.keys(stateToSet).length ? stateToSet : null`) together with the
authoritative change record reported to `onStateChange`. -/
def internalSetState (cfg : Config) (ch : Changes) (state : Record) : Record × Record :=
  let allChanges := allChangesOf cfg ch state
  let stateToSet := stateToSetOf cfg state (getState cfg state) allChanges
  (if stateToSet.isEmpty then state else setStateMerge state stateToSet, allChanges)

/-- Payload of an `onToggle`/`onReset` invocation: the 12.js variant passes
the single value `getState().on`, the provider variant passes the whole
`getState()` record. -/
inductive CbArg where
  | val (v : JVal)
  | record (r : Record)
  deriving DecidableEq, Repr

/-- Observable callback invocations, in order. -/
inductive Ev where
  | stChange (changes state : Record)
  | togCb (arg : CbArg)
  | rstCb (arg : CbArg)
  | extCall (f : JVal)
  deriving DecidableEq, Repr

/-- The change computed by `toggle` (12.js line 37):
`({on}) => ({type, on: !on})`. -/
def togChanges (ty : String) : Changes :=
  .fn (fun comb => [("type", .str ty), ("on", jsNot (recGet comb "on"))])

/-- The change computed by `reset` (12.js line 32):
`{...this.initialState, type: Toggle.stateChangeTypes.reset}`. -/
def rstChanges (cfg : Config) : Changes :=
  .lit (initialState cfg ++ [("type", .str stateChangeTypesReset)])

/-- `toggle` of 12.js (lines 35-39): run the pipeline, then
`onStateChange(allChanges, this.state)` and `onToggle(this.getState().on)`
against the post-commit state. -/
def toggle (cfg : Config) (ty : String) (state : Record) : Record × List Ev :=
  let p := internalSetState cfg (togChanges ty) state
  (p.1, [.stChange p.2 p.1, .togCb (.val (recGet (getState cfg p.1) "on"))])

/-- `reset` of 12.js (lines 30-34). -/
def reset (cfg : Config) (state : Record) : Record × List Ev :=
  let p := internalSetState cfg (rstChanges cfg) state
  (p.1, [.stChange p.2 p.1, .rstCb (.val (recGet (getState cfg p.1) "on"))])

/-- `toggle` of the provider variant (part_000 lines 33-37): identical
pipeline, but `onToggle` receives the whole `this.getState()`. -/
def providerToggle (cfg : Config) (ty : String) (state : Record) : Record × List Ev :=
  let p := internalSetState cfg (togChanges ty) state
  (p.1, [.stChange p.2 p.1, .togCb (.record (getState cfg p.1))])

/-- `reset` of the provider variant (part_000 lines 28-32): `onReset`
receives the whole `this.getState()`. -/
def providerReset (cfg : Config) (state : Record) : Record × List Ev :=
  let p := internalSetState cfg (rstChanges cfg) state
  (p.1, [.stChange p.2 p.1, .rstCb (.record (getState cfg p.1))])

/-- A public mutation of the coordinator. -/
inductive Op where
  | tog (ty : String)
  | rst
  deriving Repr

/-- Apply one public mutation to the internal state. -/
def applyOp (cfg : Config) (state : Record) : Op → Record
  | .tog ty => (toggle cfg ty state).1
  | .rst => (reset cfg state).1

/-- Run a sequence of public mutations. -/
def runOps (cfg : Config) (state : Record) (ops : List Op) : Record :=
  ops.foldl (applyOp cfg) state

/-! ### Concrete configurations used by the claims -/

/-- No owner-supplied props at all: everything uncontrolled, default reducer. -/
def cfgDefault : Config := ⟨[], defaultStateReducer⟩

/-- Owner controls `on`, fixed at `true`. -/
def cfgControlledTrue : Config := ⟨[("on", .bool true)], defaultStateReducer⟩

/-- Owner controls `on`, fixed at `false` (initial internal `on` is also
`false`, from the default `initialOn`). -/
def cfgControlledFalse : Config := ⟨[("on", .bool false)], defaultStateReducer⟩

/-- Owner supplies only `initialOn`; no controlled fields, default reducer. -/
def cfgInitial (b : Bool) : Config := ⟨[("initialOn", .bool b)], defaultStateReducer⟩

/-- Owner supplies a value for all four state fields: every field is
controlled, so the internal write set is always empty. -/
def cfgAllControlled : Config :=
  ⟨[("on", .bool true), ("toggle", .fnv "ownToggle"), ("reset", .fnv "ownReset"),
    ("getTogglerProps", .fnv "ownGTP")], defaultStateReducer⟩

/-- The custom reducer of the spec's test property: always returns a record
with `on` set to `true` and `type` copied from the proposed changes. -/
def forceOnTrue : Record → Record → Record :=
  fun _ changes => [("on", .bool true), ("type", recGet changes "type")]

/-- The canonical shape of the internal state when no field is controlled:
the `on` value plus the three unchanged operation handles. -/
def canonSt (x : Bool) : Record :=
  [("on", .bool x),
   ("toggle", .fnv "toggle"),
   ("reset", .fnv "reset"),
   ("getTogglerProps", .fnv "getTogglerProps")]

/-- Config with no owner props but the always-on custom reducer. -/
def cfgForce : Config := ⟨[], forceOnTrue⟩

/-- The change record carried by the first `onStateChange` event, when any. -/
def reportedChanges : List Ev → Option Record
  | Ev.stChange ch _ :: _ => some ch
  | _ => none

/-- Number of `onStateChange` invocations in an event trace. -/
def stChangeCount (evs : List Ev) : Nat :=
  evs.countP (fun e => match e with | .stChange _ _ => true | _ => false)

/-- The argument of the first `onToggle` event, when any. -/
def togCbArg : List Ev → Option CbArg
  | [] => none
  | Ev.togCb a :: _ => some a
  | _ :: tl => togCbArg tl

/-- Marker for the closure that calls the coordinator's own toggle. -/
def selfToggleFn : String := "this.toggle"

/-- A JS object literal followed by a trailing spread: a key of the spread
that is already present overwrites that value in place, a genuinely new
key is appended in order. -/
def objSpread (base ext : Record) : Record :=
  base.map (fun kv => (kv.1, if recHas ext kv.1 then recGet ext kv.1 else kv.2))
    ++ ext.filter (fun kv => !recHas base kv.1)

/-- The interaction-binding descriptor returned by `getTogglerProps`: the
composed activation handler (whose key `onClick` was destructured out of
the overrides and so can never be shadowed by the spread), and the
remaining attributes object. -/
structure TogglerProps where
  onClick : List JVal
  attrs : Record
  deriving Repr

/-- `getTogglerProps` (12.js lines 40-44): destructures `onClick` out of the
overrides, composes it with the coordinator's own toggle via `callAll`,
sets the `aria-expanded` flag from the control-aware `on`, and then spreads
the remaining overrides LAST — so an overrides record that itself carries
an `aria-expanded` key shadows the computed flag. -/
def getTogglerProps (cfg : Config) (state : Record) (overrides : Record) : TogglerProps :=
  { onClick := [recGet overrides "onClick", .fnv selfToggleFn],
    attrs := objSpread [("aria-expanded", recGet (getState cfg state) "on")]
      (overrides.filter (fun kv => kv.1 != "onClick")) }

/-- Invoking the handler `callAll` composed: each captured value is invoked
when truthy (the `fn && fn(...)` guard); the self-toggle marker runs the
coordinator's own `toggle()` with the default type, any other handler is
recorded as an `extCall` event. -/
def runOnClick (cfg : Config) (fns : List JVal) (state : Record) : Record × List Ev :=
  fns.foldl (fun acc f =>
    if truthy f then
      if f = .fnv selfToggleFn then
        ((toggle cfg stateChangeTypesToggle acc.1).1,
         acc.2 ++ (toggle cfg stateChangeTypesToggle acc.1).2)
      else (acc.1, acc.2 ++ [.extCall f])
    else acc) (state, [])

/-- Example overrides record for the C9 witness. -/
def ovExample : Record := [("onClick", .fnv "f"), ("data-x", .num 1)]

/-- Overrides record that itself carries an `aria-expanded` key. -/
def ovShadow : Record := [("onClick", .fnv "f"), ("aria-expanded", .num 5)]

/-- The ToggleState field names. -/
def stateFields : List String := ["on", "toggle", "reset", "getTogglerProps"]

/-! ### Basic record lemmas -/

theorem recGet_eq_undef_of_not_has : ∀ (l : Record) (k : String),
    recHas l k = false → recGet l k = .undef
  | [], _, _ => rfl
  | (k0, v0) :: tl, k, h => by
    by_cases hk : k0 = k
    · simp [recHas, hk] at h
    · simpa [recGet, hk] using recGet_eq_undef_of_not_has tl k (by simpa [recHas, hk] using h)

theorem recHas_iff_mem : ∀ (l : Record) (k : String),
    recHas l k = true ↔ k ∈ keysOf l
  | [], k => by simp [recHas, keysOf]
  | (k0, v0) :: tl, k => by
    by_cases hk : k0 = k
    · simp [recHas, keysOf, hk]
    · simp [recHas, keysOf, hk, recHas_iff_mem tl k, Ne.symm hk]

theorem recGet_append : ∀ (a b : Record) (k : String),
    recGet (a ++ b) k = if recHas a k then recGet a k else recGet b k
  | [], b, k => by simp [recGet, recHas]
  | (k0, v0) :: tl, b, k => by
    by_cases hk : k0 = k
    · simp [recGet, recHas, hk]
    · simp [recGet, recHas, hk, recGet_append tl b k]

theorem recHas_append : ∀ (a b : Record) (k : String),
    recHas (a ++ b) k = (recHas a k || recHas b k)
  | [], b, k => by simp [recHas]
  | (k0, v0) :: tl, b, k => by
    by_cases hk : k0 = k
    · simp [recHas, hk]
    · simp [recHas, hk, recHas_append tl b k]

theorem recGet_mapVals (g : String → JVal → JVal) : ∀ (l : Record) (k : String),
    recGet (l.map (fun kv => (kv.1, g kv.1 kv.2))) k
      = if recHas l k then g k (recGet l k) else .undef
  | [], k => by simp [recGet, recHas]
  | (k0, v0) :: tl, k => by
    by_cases hk : k0 = k
    · simp [recGet, recHas, hk]
    · simp [recGet, recHas, hk, recGet_mapVals g tl k]

theorem recHas_mapVals (g : String → JVal → JVal) : ∀ (l : Record) (k : String),
    recHas (l.map (fun kv => (kv.1, g kv.1 kv.2))) k = recHas l k
  | [], k => by simp [recHas]
  | (k0, v0) :: tl, k => by
    by_cases hk : k0 = k
    · simp [recHas, hk]
    · simp [recHas, hk, recHas_mapVals g tl k]

theorem recGet_filterKey (q : String → Bool) : ∀ (l : Record) (k : String),
    recGet (l.filter (fun kv => q kv.1)) k
      = if q k then recGet l k else .undef
  | [], k => by simp [recGet]
  | (k0, v0) :: tl, k => by
    by_cases hk : k0 = k
    · subst hk
      cases hq : q k0 <;> simp [recGet, hq, recGet_filterKey q tl k0]
    · cases hq : q k0 <;> simp [recGet, hq, hk, recGet_filterKey q tl k]

theorem recHas_filterKey (q : String → Bool) : ∀ (l : Record) (k : String),
    recHas (l.filter (fun kv => q kv.1)) k = (q k && recHas l k)
  | [], k => by simp [recHas]
  | (k0, v0) :: tl, k => by
    by_cases hk : k0 = k
    · subst hk
      cases hq : q k0 <;> simp [recHas, hq, recHas_filterKey q tl k0]
    · cases hq : q k0 <;> simp [recHas, hq, hk, recHas_filterKey q tl k]

/-! ### Lemmas about records built from a key list
(the shape of `stateToSetOf`) -/

theorem keys_keyBuild (p : String → Bool) (v : String → JVal) : ∀ (ks : List String),
    keysOf (ks.filterMap (fun key => if p key then none else some (key, v key)))
      = ks.filter (fun key => !p key)
  | [] => by simp [keysOf]
  | k0 :: tl => by
    have ih := keys_keyBuild p v tl
    cases hp : p k0 <;> simp_all [keysOf, List.filterMap_cons]

theorem recGet_keyBuild (p : String → Bool) (v : String → JVal) : ∀ (ks : List String) (k : String),
    recGet (ks.filterMap (fun key => if p key then none else some (key, v key))) k
      = if k ∈ ks ∧ p k = false then v k else .undef
  | [], k => by simp [recGet]
  | k0 :: tl, k => by
    by_cases hk : k0 = k
    · subst hk
      cases hp : p k0 <;>
        simp [List.filterMap_cons, hp, recGet, recGet_keyBuild p v tl k0]
    · cases hp : p k0 <;>
        simp [List.filterMap_cons, hp, recGet, Ne.symm hk, hk,
          recGet_keyBuild p v tl k]

theorem recHas_keyBuild (p : String → Bool) (v : String → JVal) : ∀ (ks : List String) (k : String),
    recHas (ks.filterMap (fun key => if p key then none else some (key, v key))) k
      = (decide (k ∈ ks) && !p k)
  | [], k => by simp [recHas]
  | k0 :: tl, k => by
    by_cases hk : k0 = k
    · subst hk
      cases hp : p k0 <;>
        simp [List.filterMap_cons, hp, recHas, recHas_keyBuild p v tl k0]
    · cases hp : p k0 <;>
        simp [List.filterMap_cons, hp, recHas, Ne.symm hk, hk,
          recHas_keyBuild p v tl k]

/-! ### Pipeline-level lemmas -/

theorem recGet_getState (cfg : Config) (st : Record) (k : String) :
    recGet (getState cfg st) k
      = if recHas st k then
          (if isControlled cfg k then propsVal cfg k else recGet st k)
        else .undef := by
  simpa [getState] using
    recGet_mapVals (fun key v => if isControlled cfg key then propsVal cfg key else v) st k

theorem recHas_getState (cfg : Config) (st : Record) (k : String) :
    recHas (getState cfg st) k = recHas st k := by
  simpa [getState] using
    recHas_mapVals (fun key v => if isControlled cfg key then propsVal cfg key else v) st k

theorem recGet_setStateMerge (st upd : Record) (k : String) :
    recGet (setStateMerge st upd) k
      = if recHas upd k then recGet upd k else recGet st k := by
  have h2 := recGet_mapVals (fun key v => if recHas upd key then recGet upd key else v) st k
  have h3 := recHas_mapVals (fun key v => if recHas upd key then recGet upd key else v) st k
  have h4 := recGet_filterKey (fun key => !recHas st key) upd k
  rw [setStateMerge, recGet_append, h3, h2, h4]
  cases hs : recHas st k <;> cases hu : recHas upd k
  · simp [recGet_eq_undef_of_not_has st k hs, recGet_eq_undef_of_not_has upd k hu]
  · simp
  · simp [hu]
  · simp

theorem recHas_setStateMerge (st upd : Record) (k : String) :
    recHas (setStateMerge st upd) k = (recHas st k || recHas upd k) := by
  have h3 := recHas_mapVals (fun key v => if recHas upd key then recGet upd key else v) st k
  have h4 := recHas_filterKey (fun key => !recHas st key) upd k
  rw [setStateMerge, recHas_append, h3, h4]
  cases hs : recHas st k <;> cases hu : recHas upd k <;> simp

theorem recGet_objSpread (base ext : Record) (k : String) :
    recGet (objSpread base ext) k
      = if recHas ext k then recGet ext k else recGet base k :=
  recGet_setStateMerge base ext k

theorem keys_stateToSetOf (cfg : Config) (st comb allCh : Record) :
    keysOf (stateToSetOf cfg st comb allCh)
      = (keysOf st).filter (fun k => !isControlled cfg k) := by
  simpa [stateToSetOf, keysOf] using
    keys_keyBuild (fun key => isControlled cfg key)
      (fun key => if recHas allCh key then recGet allCh key else recGet comb key)
      (st.map Prod.fst)

theorem recGet_stateToSetOf (cfg : Config) (st comb allCh : Record) (k : String) :
    recGet (stateToSetOf cfg st comb allCh) k
      = if recHas st k ∧ isControlled cfg k = false then
          (if recHas allCh k then recGet allCh k else recGet comb k)
        else .undef := by
  have h := recGet_keyBuild (fun key => isControlled cfg key)
    (fun key => if recHas allCh key then recGet allCh key else recGet comb key)
    (st.map Prod.fst) k
  rw [stateToSetOf, h]
  have hm : k ∈ st.map Prod.fst ↔ recHas st k = true := by
    rw [recHas_iff_mem st k]; exact Iff.rfl
  by_cases hs : recHas st k = true <;> by_cases hc : isControlled cfg k = true <;>
    simp_all

theorem recHas_stateToSetOf (cfg : Config) (st comb allCh : Record) (k : String) :
    recHas (stateToSetOf cfg st comb allCh) k
      = (recHas st k && !isControlled cfg k) := by
  have h := recHas_keyBuild (fun key => isControlled cfg key)
    (fun key => if recHas allCh key then recGet allCh key else recGet comb key)
    (st.map Prod.fst) k
  rw [stateToSetOf, h]
  have hm : k ∈ st.map Prod.fst ↔ recHas st k = true := by
    rw [recHas_iff_mem st k]; exact Iff.rfl
  by_cases hs : recHas st k = true <;> simp_all

/-- The internal state after `internalSetState`: the write-set value when the
field is in the write set, else the old internal value (covers both the
empty-write-set branch and the merge branch). -/
theorem recGet_internalSetState (cfg : Config) (ch : Changes) (st : Record) (k : String) :
    recGet (internalSetState cfg ch st).1 k
      = if recHas st k ∧ isControlled cfg k = false then
          (if recHas (allChangesOf cfg ch st) k then recGet (allChangesOf cfg ch st) k
           else recGet (getState cfg st) k)
        else recGet st k := by
  rw [internalSetState]
  by_cases he : (stateToSetOf cfg st (getState cfg st) (allChangesOf cfg ch st)).isEmpty = true
  · have hnil : stateToSetOf cfg st (getState cfg st) (allChangesOf cfg ch st) = [] :=
      List.isEmpty_iff.mp he
    by_cases hs : recHas st k = true <;> by_cases hc : isControlled cfg k = true
    · simp [he, hs, hc]
    · -- the field is uncontrolled and present, yet the write set is empty:
      -- impossible, since `recHas` of the write set would then be true
      have := recHas_stateToSetOf cfg st (getState cfg st) (allChangesOf cfg ch st) k
      rw [hnil] at this
      simp [recHas, hs, hc] at this
    · simp [he, hs, hc]
    · simp [he, hs, hc]
  · have hget := recGet_setStateMerge st
      (stateToSetOf cfg st (getState cfg st) (allChangesOf cfg ch st)) k
    have hhas := recHas_stateToSetOf cfg st (getState cfg st) (allChangesOf cfg ch st) k
    have hval := recGet_stateToSetOf cfg st (getState cfg st) (allChangesOf cfg ch st) k
    by_cases hs : recHas st k = true <;> by_cases hc : isControlled cfg k = true <;>
      simp_all

theorem recHas_internalSetState (cfg : Config) (ch : Changes) (st : Record) (k : String) :
    recHas (internalSetState cfg ch st).1 k = recHas st k := by
  rw [internalSetState]
  by_cases he : (stateToSetOf cfg st (getState cfg st) (allChangesOf cfg ch st)).isEmpty = true
  · simp [he]
  · have hhas := recHas_stateToSetOf cfg st (getState cfg st) (allChangesOf cfg ch st) k
    have hm := recHas_setStateMerge st
      (stateToSetOf cfg st (getState cfg st) (allChangesOf cfg ch st)) k
    by_cases hs : recHas st k = true <;> simp_all

theorem initialState_cfgInitial (b : Bool) : initialState (cfgInitial b) = canonSt b := rfl

theorem toggle_step (b x : Bool) :
    (toggle (cfgInitial b) stateChangeTypesToggle (canonSt x)).1 = canonSt (!x) := rfl

theorem reset_step (b x : Bool) :
    (reset (cfgInitial b) (canonSt x)).1 = canonSt b := rfl

theorem getState_canon (b x : Bool) :
    recGet (getState (cfgInitial b) (canonSt x)) "on" = .bool x := rfl

/-! ### Runs of public operations -/

theorem recHas_applyOp (cfg : Config) (st : Record) (op : Op) (k : String) :
    recHas (applyOp cfg st op) k = recHas st k := by
  cases op with
  | tog ty => exact recHas_internalSetState cfg (togChanges ty) st k
  | rst => exact recHas_internalSetState cfg (rstChanges cfg) st k

theorem recHas_runOps (cfg : Config) (k : String) : ∀ (ops : List Op) (st : Record),
    recHas (runOps cfg st ops) k = recHas st k
  | [], st => rfl
  | op :: ops, st => by
    rw [show runOps cfg st (op :: ops) = runOps cfg (applyOp cfg st op) ops from rfl,
      recHas_runOps cfg k ops (applyOp cfg st op), recHas_applyOp]

/-- C1: a controlled field always reads through `getState` as the
owner-supplied prop value, never the internal value; in particular with
`on` controlled at `true`, `getState().on` is `true` after any sequence of
`toggle`/`reset` calls. -/
theorem c1_controlled_getState :
    (∀ (cfg : Config) (st : Record) (k : String),
        isControlled cfg k = true → recHas st k = true →
        recGet (getState cfg st) k = propsVal cfg k)
  ∧ (∀ ops : List Op,
        recGet (getState cfgControlledTrue
          (runOps cfgControlledTrue (initialState cfgControlledTrue) ops)) "on"
          = .bool true) := by
  constructor
  · intro cfg st k hc hh
    rw [recGet_getState]
    simp [hc, hh]
  · intro ops
    have hh : recHas (runOps cfgControlledTrue (initialState cfgControlledTrue) ops) "on"
        = true := by
      rw [recHas_runOps]; rfl
    rw [recGet_getState]
    simp [hh, show isControlled cfgControlledTrue "on" = true from rfl,
      show propsVal cfgControlledTrue "on" = JVal.bool true from rfl]

/-- Witness for C1: a concrete controlled read. -/
theorem c1_witness :
    recGet (getState cfgControlledTrue (initialState cfgControlledTrue)) "on"
      = propsVal cfgControlledTrue "on" :=
  c1_controlled_getState.1 cfgControlledTrue (initialState cfgControlledTrue) "on"
    (by decide) (by decide)

theorem runOps_toggles (b : Bool) : ∀ (n : Nat) (x : Bool),
    runOps (cfgInitial b) (canonSt x) (List.replicate n (Op.tog stateChangeTypesToggle))
      = canonSt (Bool.xor x (decide (n % 2 = 1)))
  | 0, x => by simp [runOps]
  | n + 1, x => by
    rw [List.replicate_succ]
    rw [show runOps (cfgInitial b) (canonSt x)
          (Op.tog stateChangeTypesToggle :: List.replicate n (Op.tog stateChangeTypesToggle))
        = runOps (cfgInitial b) (canonSt (!x))
            (List.replicate n (Op.tog stateChangeTypesToggle)) from rfl]
    rw [runOps_toggles b n (!x)]
    have hd : decide ((n + 1) % 2 = 1) = !decide (n % 2 = 1) := by
      by_cases h : n % 2 = 1
      · have h2 : (n + 1) % 2 = 0 := by omega
        simp [h, h2]
      · have h2 : (n + 1) % 2 = 1 := by omega
        simp [h, h2]
    rw [hd]
    congr 1
    generalize decide (n % 2 = 1) = d
    cases x <;> cases d <;> rfl

/-- C2: with no controlled fields and the default reducer, `getState().on`
after N `toggle()` calls is `initialOn XOR (N odd)`, and a subsequent
`reset()` brings it back to `initialOn`. -/
theorem c2_uncontrolled_toggle_reset (b : Bool) (n : Nat) :
    recGet (getState (cfgInitial b)
        (runOps (cfgInitial b) (initialState (cfgInitial b))
          (List.replicate n (Op.tog stateChangeTypesToggle)))) "on"
      = .bool (Bool.xor b (decide (n % 2 = 1)))
  ∧ recGet (getState (cfgInitial b)
        ((reset (cfgInitial b)
          (runOps (cfgInitial b) (initialState (cfgInitial b))
            (List.replicate n (Op.tog stateChangeTypesToggle)))).1)) "on"
      = .bool b := by
  rw [initialState_cfgInitial, runOps_toggles b n b]
  exact ⟨getState_canon b _, by rw [reset_step]; exact getState_canon b b⟩

/-- C3: with the always-on reducer and `on` uncontrolled, a single
`toggle()` leaves `getState().on` at `true` whatever the prior value:
the reducer's output, not the naive flip, is what gets applied. -/
theorem c3_reducer_authoritative (cfg : Config) (st : Record) (ty : String)
    (hr : cfg.stateReducer = forceOnTrue)
    (hc : isControlled cfg "on" = false)
    (hh : recHas st "on" = true) :
    recGet (getState cfg (toggle cfg ty st).1) "on" = .bool true := by
  rw [show (toggle cfg ty st).1 = (internalSetState cfg (togChanges ty) st).1 from rfl,
    recGet_getState, recHas_internalSetState]
  simp only [hh, hc, if_true, Bool.false_eq_true, if_false, ite_true]
  rw [recGet_internalSetState]
  simp only [hh, hc, and_self, if_true]
  rw [allChangesOf, hr]
  rfl

/-- Witness for C3: the always-on reducer at a concrete uncontrolled state. -/
theorem c3_witness :
    recGet (getState cfgForce
      (toggle cfgForce stateChangeTypesToggle (initialState cfgForce)).1) "on"
      = .bool true :=
  c3_reducer_authoritative cfgForce (initialState cfgForce) stateChangeTypesToggle
    rfl (by decide) (by decide)

/-- C4 counterexample: with `on` controlled at `false` (and internal `on`
also `false`), `toggle()` produces an authoritative change record with
`on = true`, yet the internally tracked state is completely unchanged:
controlled fields are dropped from the write set, so the internal value is
NOT updated, contrary to the claim. -/
theorem c4_counterexample :
    (toggle cfgControlledFalse stateChangeTypesToggle (initialState cfgControlledFalse)).1
      = initialState cfgControlledFalse
  ∧ recGet (allChangesOf cfgControlledFalse (togChanges stateChangeTypesToggle)
      (initialState cfgControlledFalse)) "on" = .bool true
  ∧ recGet (initialState cfgControlledFalse) "on" ≠ .bool true := by decide

/-- C4 amended: when a field is controlled, `toggle()`/`reset()` leave its
internally tracked value unchanged (the field is removed from the write
set), and its `getState()` reading is unchanged as well. -/
theorem c4_amended_controlled_frame (cfg : Config) (st : Record) (ty k : String)
    (hc : isControlled cfg k = true) :
    recGet (toggle cfg ty st).1 k = recGet st k
  ∧ recGet (reset cfg st).1 k = recGet st k
  ∧ recGet (getState cfg (toggle cfg ty st).1) k = recGet (getState cfg st) k
  ∧ recGet (getState cfg (reset cfg st).1) k = recGet (getState cfg st) k := by
  have ht : (toggle cfg ty st).1 = (internalSetState cfg (togChanges ty) st).1 := rfl
  have hs : (reset cfg st).1 = (internalSetState cfg (rstChanges cfg) st).1 := rfl
  refine ⟨?_, ?_, ?_, ?_⟩
  · rw [ht, recGet_internalSetState]; simp [hc]
  · rw [hs, recGet_internalSetState]; simp [hc]
  · rw [ht, recGet_getState, recGet_getState, recHas_internalSetState]; simp [hc]
  · rw [hs, recGet_getState, recGet_getState, recHas_internalSetState]; simp [hc]

/-- Witness for the amended C4: controlled `on` is internally untouched by
a concrete toggle. -/
theorem c4_amended_witness :
    recGet (toggle cfgControlledTrue stateChangeTypesToggle
      (initialState cfgControlledTrue)).1 "on"
      = recGet (initialState cfgControlledTrue) "on" :=
  (c4_amended_controlled_frame cfgControlledTrue (initialState cfgControlledTrue)
    stateChangeTypesToggle "on" (by decide)).1

/-- C5 counterexample: the reported `type` for a default `toggle()` is the
string `__toggle_toggle__` (the `stateChangeTypes.toggle` marker), not the
string `toggle` the claim names. -/
theorem c5_counterexample :
    reportedChanges (toggle cfgDefault stateChangeTypesToggle (initialState cfgDefault)).2
      = some [("type", .str "__toggle_toggle__"), ("on", .bool true)]
  ∧ JVal.str "__toggle_toggle__" ≠ JVal.str "toggle" := by decide

/-- C5 amended: with the default reducer, `toggle()` with no override
reports a change record whose `type` is `stateChangeTypes.toggle`
(`"__toggle_toggle__"`) and `reset()` one whose `type` is
`stateChangeTypes.reset` (`"__toggle_reset__"`); both records carry the
`on` field whether or not `on` is controlled. -/
theorem c5_amended_reported_types (cfg : Config) (st : Record)
    (hr : cfg.stateReducer = defaultStateReducer) :
    reportedChanges (toggle cfg stateChangeTypesToggle st).2
      = some (allChangesOf cfg (togChanges stateChangeTypesToggle) st)
  ∧ recGet (allChangesOf cfg (togChanges stateChangeTypesToggle) st) "type"
      = .str stateChangeTypesToggle
  ∧ recHas (allChangesOf cfg (togChanges stateChangeTypesToggle) st) "on" = true
  ∧ reportedChanges (reset cfg st).2 = some (allChangesOf cfg (rstChanges cfg) st)
  ∧ recGet (allChangesOf cfg (rstChanges cfg) st) "type" = .str stateChangeTypesReset
  ∧ recHas (allChangesOf cfg (rstChanges cfg) st) "on" = true := by
  refine ⟨rfl, ?_, ?_, rfl, ?_, ?_⟩
  · rw [allChangesOf, hr]; rfl
  · rw [allChangesOf, hr]; rfl
  · rw [allChangesOf, hr]; rfl
  · rw [allChangesOf, hr]; rfl

/-- Witness for the amended C5: concrete reported type of a toggle. -/
theorem c5_amended_witness :
    recGet (allChangesOf cfgDefault (togChanges stateChangeTypesToggle)
      (initialState cfgDefault)) "type" = .str stateChangeTypesToggle :=
  (c5_amended_reported_types cfgDefault (initialState cfgDefault) rfl).2.1

/-- C6: every `toggle()`/`reset()` fires `onStateChange` exactly once; in
particular it still fires when every field is controlled and the write
set is empty, so no internal mutation happens at all. -/
theorem c6_onStateChange_once (cfg : Config) (st : Record) (ty : String) :
    stChangeCount (toggle cfg ty st).2 = 1
  ∧ stChangeCount (reset cfg st).2 = 1
  ∧ (toggle cfgAllControlled stateChangeTypesToggle (initialState cfgAllControlled)).1
      = initialState cfgAllControlled
  ∧ stChangeCount (toggle cfgAllControlled stateChangeTypesToggle
      (initialState cfgAllControlled)).2 = 1 :=
  ⟨rfl, rfl, by decide, by decide⟩

/-- C7: the internal write set ranges over exactly the field names of the
current internal state: its keys are the uncontrolled state keys in order;
an uncontrolled field's value comes from the authoritative change record
when present there, else is retained from the combined state; controlled
fields are excluded, so their internal value is unchanged by the
operation. -/
theorem c7_write_set (cfg : Config) (st comb allCh : Record) :
    keysOf (stateToSetOf cfg st comb allCh)
      = (keysOf st).filter (fun k => !isControlled cfg k)
  ∧ (∀ k, isControlled cfg k = false → recHas st k = true →
      recGet (stateToSetOf cfg st comb allCh) k
        = if recHas allCh k then recGet allCh k else recGet comb k)
  ∧ (∀ k, isControlled cfg k = true →
      recHas (stateToSetOf cfg st comb allCh) k = false)
  ∧ (∀ (ch : Changes) (k : String), isControlled cfg k = true →
      recGet (internalSetState cfg ch st).1 k = recGet st k) := by
  refine ⟨keys_stateToSetOf cfg st comb allCh, ?_, ?_, ?_⟩
  · intro k hc hh
    rw [recGet_stateToSetOf]
    simp [hc, hh]
  · intro k hc
    rw [recHas_stateToSetOf]
    simp [hc]
  · intro ch k hc
    rw [recGet_internalSetState]
    simp [hc]

/-- Witness for C7: the write-set value of the uncontrolled `on` field at a
concrete change record. -/
theorem c7_witness :
    recGet (stateToSetOf cfgDefault (initialState cfgDefault)
        (getState cfgDefault (initialState cfgDefault))
        [("type", JVal.str "t"), ("on", JVal.bool true)]) "on"
      = if recHas [("type", JVal.str "t"), ("on", JVal.bool true)] "on"
          then recGet [("type", JVal.str "t"), ("on", JVal.bool true)] "on"
          else recGet (getState cfgDefault (initialState cfgDefault)) "on" :=
  (c7_write_set cfgDefault (initialState cfgDefault)
    (getState cfgDefault (initialState cfgDefault))
    [("type", JVal.str "t"), ("on", JVal.bool true)]).2.1 "on" (by decide) (by decide)

/-- C8 counterexample: in the provider variant, `onToggle` receives the
whole post-apply `getState()` record, not the boolean `getState().on`. -/
theorem c8_counterexample :
    togCbArg (providerToggle cfgDefault stateChangeTypesToggle
        (initialState cfgDefault)).2
      = some (.record [("on", .bool true), ("toggle", .fnv "toggle"),
          ("reset", .fnv "reset"), ("getTogglerProps", .fnv "getTogglerProps")])
  ∧ CbArg.record [("on", .bool true), ("toggle", .fnv "toggle"),
      ("reset", .fnv "reset"), ("getTogglerProps", .fnv "getTogglerProps")]
      ≠ CbArg.val (.bool true) := by decide

/-- C8 amended: after the apply pipeline, the 12.js variant invokes
`onToggle`/`onReset` with the post-apply control-aware `getState().on`,
while the provider variant invokes them with the whole post-apply
`getState()` record; `onStateChange` precedes the operation callback. -/
theorem c8_amended_callback_payloads (cfg : Config) (st : Record) (ty : String) :
    (toggle cfg ty st).2
      = [Ev.stChange (allChangesOf cfg (togChanges ty) st) (toggle cfg ty st).1,
         Ev.togCb (.val (recGet (getState cfg (toggle cfg ty st).1) "on"))]
  ∧ (reset cfg st).2
      = [Ev.stChange (allChangesOf cfg (rstChanges cfg) st) (reset cfg st).1,
         Ev.rstCb (.val (recGet (getState cfg (reset cfg st).1) "on"))]
  ∧ (providerToggle cfg ty st).2
      = [Ev.stChange (allChangesOf cfg (togChanges ty) st) (providerToggle cfg ty st).1,
         Ev.togCb (.record (getState cfg (providerToggle cfg ty st).1))]
  ∧ (providerReset cfg st).2
      = [Ev.stChange (allChangesOf cfg (rstChanges cfg) st) (providerReset cfg st).1,
         Ev.rstCb (.record (getState cfg (providerReset cfg st).1))] :=
  ⟨rfl, rfl, rfl, rfl⟩

/-- C9 counterexample: an overrides record carrying its own `aria-expanded`
key shadows the computed flag (the `...props` spread comes last in the
source), so the descriptor's `aria-expanded` is the override value `5`,
not the current control-aware `on` value `false`. -/
theorem c9_counterexample :
    recGet (getTogglerProps cfgDefault (initialState cfgDefault) ovShadow).attrs
        "aria-expanded" = .num 5
  ∧ recGet (getState cfgDefault (initialState cfgDefault)) "on" = .bool false
  ∧ JVal.num 5 ≠ JVal.bool false := by decide

/-- C9 amended: the descriptor from `getTogglerProps` has an activation
handler that invokes the override handler first and then the coordinator's
own `toggle()`; its `aria-expanded` flag equals the current control-aware
`on` provided the overrides carry no `aria-expanded` key of their own
(the trailing spread lets such an override shadow the computed flag); and
every other override field is passed through unchanged. -/
theorem c9_amended_getTogglerProps (cfg : Config) (st ov : Record) (fname : String)
    (h1 : recGet ov "onClick" = .fnv fname) (h2 : fname ≠ selfToggleFn) :
    runOnClick cfg (getTogglerProps cfg st ov).onClick st
      = ((toggle cfg stateChangeTypesToggle st).1,
         Ev.extCall (.fnv fname) :: (toggle cfg stateChangeTypesToggle st).2)
  ∧ (recHas ov "aria-expanded" = false →
      recGet (getTogglerProps cfg st ov).attrs "aria-expanded"
        = recGet (getState cfg st) "on")
  ∧ ∀ k, k ≠ "onClick" → recHas ov k = true →
      recGet (getTogglerProps cfg st ov).attrs k = recGet ov k := by
  refine ⟨?_, ?_, ?_⟩
  · show runOnClick cfg [recGet ov "onClick", .fnv selfToggleFn] st = _
    rw [h1, runOnClick]
    simp [truthy, h2]
  · intro ha
    show recGet (objSpread [("aria-expanded", recGet (getState cfg st) "on")]
      (ov.filter (fun kv => kv.1 != "onClick"))) "aria-expanded" = _
    rw [recGet_objSpread,
      recHas_filterKey (fun key => key != "onClick") ov "aria-expanded"]
    simp [ha, recGet]
  · intro k hk hhk
    have hq : (k != "onClick") = true := by simpa [bne_iff_ne] using hk
    show recGet (objSpread [("aria-expanded", recGet (getState cfg st) "on")]
      (ov.filter (fun kv => kv.1 != "onClick"))) k = recGet ov k
    rw [recGet_objSpread,
      recHas_filterKey (fun key => key != "onClick") ov k,
      recGet_filterKey (fun key => key != "onClick") ov k]
    simp [hq, hhk]

/-- Witness for the amended C9 at the concrete overrides record. -/
theorem c9_amended_witness :
    runOnClick cfgDefault
      (getTogglerProps cfgDefault (initialState cfgDefault) ovExample).onClick
      (initialState cfgDefault)
      = ((toggle cfgDefault stateChangeTypesToggle (initialState cfgDefault)).1,
         Ev.extCall (.fnv "f")
           :: (toggle cfgDefault stateChangeTypesToggle (initialState cfgDefault)).2)
  ∧ recGet (getTogglerProps cfgDefault (initialState cfgDefault) ovExample).attrs
      "aria-expanded" = recGet (getState cfgDefault (initialState cfgDefault)) "on"
  ∧ recGet (getTogglerProps cfgDefault (initialState cfgDefault) ovExample).attrs
      "data-x" = recGet ovExample "data-x" := by
  have h := c9_amended_getTogglerProps cfgDefault (initialState cfgDefault) ovExample "f"
    (by decide) (by decide)
  exact ⟨h.1, h.2.1 (by decide), h.2.2 "data-x" (by decide) (by decide)⟩

theorem propsVal_no_default (cfg : Config) (k : String)
    (hd : recGet defaultProps k = .undef) :
    propsVal cfg k = recGet cfg.ownProps k := by
  unfold propsVal
  cases h : recGet cfg.ownProps k <;> simp [hd, h]

/-- C10: a state field is controlled exactly when the owner supplied a
non-undefined value for it; supplying an explicit `on: undefined` behaves
identically to supplying no `on` at all. -/
theorem c10_controlled_iff (cfg : Config) (k : String) (hk : k ∈ stateFields) :
    (isControlled cfg k = true ↔ recGet cfg.ownProps k ≠ .undef)
  ∧ (∀ (r : Record → Record → Record) (ty : String),
      toggle ⟨[("on", JVal.undef)], r⟩ ty (initialState ⟨[("on", JVal.undef)], r⟩)
        = toggle ⟨[], r⟩ ty (initialState ⟨[], r⟩)
      ∧ reset ⟨[("on", JVal.undef)], r⟩ (initialState ⟨[("on", JVal.undef)], r⟩)
          = reset ⟨[], r⟩ (initialState ⟨[], r⟩)) := by
  have hk' : k = "on" ∨ k = "toggle" ∨ k = "reset" ∨ k = "getTogglerProps" := by
    simpa [stateFields] using hk
  have hd : recGet defaultProps k = .undef := by
    rcases hk' with rfl | rfl | rfl | rfl <;> decide
  constructor
  · unfold isControlled
    rw [propsVal_no_default cfg k hd]
    simp [bne_iff_ne]
  · intro r ty
    exact ⟨rfl, rfl⟩

/-- Witness for C10: explicit undefined `on` gives the same toggle result
as no `on` prop at all. -/
theorem c10_witness :
    toggle ⟨[("on", JVal.undef)], defaultStateReducer⟩ stateChangeTypesToggle
        (initialState ⟨[("on", JVal.undef)], defaultStateReducer⟩)
      = toggle ⟨[], defaultStateReducer⟩ stateChangeTypesToggle
          (initialState ⟨[], defaultStateReducer⟩) :=
  ((c10_controlled_iff cfgDefault "on" (by decide)).2 defaultStateReducer
    stateChangeTypesToggle).1

end TogglePatterns
